import Mathlib

/-!
Shallow embedding of the hinshiba/Shotclassif image-triage tool.

The crate root is `src/main.rs`: it declares no modules, so `app.rs`,
`viewmodel.rs` and `ui.rs` are uncompiled drafts; where a claim cites them we
embed the cited draft definitions as well (`worker_num_app`,
`PROCESSED_IMG_BUFSIZE`).

The embedding has two layers:
* a sequential model of the consumer (`AppState`, `on_key`,
  `move_current_image`, `update_imgstate`, `run_app`) over an abstract
  filesystem `FS`, with the channel's receiving end modelled as the FIFO list
  of tasks the workers will still deliver;
* an interleaving transition system (`Step`, `Reachable`) for the worker pool
  of `main` (main.rs 191-224): the shared atomic cursor, the worker loop, the
  bounded `sync_channel`, and the consumer's receive/drop actions.
-/

set_option autoImplicit false

namespace Shotclassif

/-- A filesystem path, as its list of components (model of Rust `PathBuf`). -/
abbrev FsPath := List String

/-- Model of `Path::file_name`: the last component, if any. -/
def fileName (p : FsPath) : Option String := p.getLast?

/-- Splits a character list at '/' separators. -/
def splitSlash : List Char → List (List Char)
  | [] => [[]]
  | c :: cs =>
    if c = '/' then [] :: splitSlash cs
    else
      match splitSlash cs with
      | t :: ts => (c :: t) :: ts
      | [] => [[c]]

/-- Components of a destination string from the config, model of
`Path::new(dist)`. -/
def toPath (s : String) : FsPath := (splitSlash s.data).map String.mk

/-- Rendering of a path, model of `Path::display`. -/
def pathStr (p : FsPath) : String := String.intercalate "/" p

/-- Abstract filesystem state: the list of existing entries (files and
directories), without duplicates in well-formed states. -/
structure FS where
  paths : List FsPath
deriving DecidableEq

/-- Model of `Path::exists`. -/
def FS.pathExists (fs : FS) (p : FsPath) : Bool := decide (p ∈ fs.paths)

/-- The directory `d` together with all its ancestors, i.e. everything
`fs::create_dir_all d` makes sure exists. -/
def ancestorDirs (d : FsPath) : List FsPath :=
  (List.range d.length).map (fun k => d.take (k + 1))

/-- Model of `fs::create_dir_all`: adds the directory and every missing
ancestor; succeeds (and changes nothing) when they are already present. -/
def FS.create_dir_all (fs : FS) (d : FsPath) : FS :=
  { paths := fs.paths ++ (ancestorDirs d).filter (fun p => decide (p ∉ fs.paths)) }

/-- Model of `fs::rename src dst` in the success case. -/
def FS.rename (fs : FS) (src dst : FsPath) : FS :=
  { paths := dst :: fs.paths.erase src }

/-- Errors surfaced by `App::move_current_image` (main.rs 91-122), plus the
panic hidden in `get_imgname`'s `unwrap`. -/
inductive MoveErr
  | noFileName       -- context "Failed to get file name"
  | collision        -- the destination already has a same-named entry
  | panicNoCurrent   -- `self.current_img.as_ref().unwrap()` with no image
deriving DecidableEq

/-- The destination mapping `config.dists : HashMap<char, String>`, as an
association list. -/
abbrev Dists := List (Char × String)

/-- Lookup in the destination mapping, model of `self.config.dists.get(&key)`. -/
def lookupDist (dists : Dists) (key : Char) : Option String :=
  (dists.find? (fun kv => kv.1 = key)).map Prod.snd

/-- The mutable state of `App` in main.rs, together with the receiving end of
the worker channel. `pending` is the FIFO list of task indices the workers
will still deliver; `pending = []` models a disconnected and drained channel,
on which `recv` errors. -/
structure AppState where
  processed_num : Nat
  current_img : Option Nat      -- the `idx` field of the current `ProcessedImg`
  last_action_message : String
  pending : List Nat
  fs : FS
  should_quit : Bool
deriving DecidableEq

/-- Model of `App::update_imgstate` (main.rs 125-129): a blocking `recv` that
fails exactly when no further task will ever arrive. -/
def update_imgstate (st : AppState) : Option AppState :=
  match st.pending with
  | [] => none
  | i :: rest => some { st with current_img := some i, pending := rest }

/-- Model of `App::get_imgname` (main.rs 131-133):
`self.images[self.current_img.unwrap().idx]`. The app only calls this after a
first task has been received, so `current_img` is `some`; the `none` case
(a panic in Rust) is given arbitrarily. -/
def get_imgname (images : List FsPath) (st : AppState) : FsPath :=
  images.getD (st.current_img.getD 0) []

/-- Model of `App::move_current_image` (main.rs 91-122). Returns the post-call
state and, on failure, the surfaced error; effects performed before the
failure point (directory creation) persist, as with `&mut self` in Rust. -/
def move_current_image (images : List FsPath) (st : AppState) (dist : String) :
    AppState × Option MoveErr :=
  match st.current_img with
  | none => (st, some .panicNoCurrent)
  | some idx =>
    let current_image_path := images.getD idx []
    match fileName current_image_path with
    | none => (st, some .noFileName)
    | some file_name =>
      let distP := toPath dist
      let fs1 := st.fs.create_dir_all distP
      let new_image_path := distP ++ [file_name]
      if fs1.pathExists new_image_path then
        ({ st with fs := fs1 }, some .collision)
      else
        ({ st with
            fs := fs1.rename current_image_path new_image_path,
            last_action_message := "move: " ++ file_name ++ " -> " ++ dist },
          none)

/-- Model of `App::on_key` (main.rs 76-88): act on a mapped key (skip is the
exact literal "skip"), then `let _ = self.update_imgstate();` (its error is
discarded), then `self.processed_num += 1`. A move failure propagates with
`?` before the receive and the increment. -/
def on_key (images : List FsPath) (dists : Dists) (st : AppState) (key : Char) :
    AppState × Option MoveErr :=
  let acted : AppState × Option MoveErr :=
    match lookupDist dists key with
    | some dist =>
      if dist = "skip" then
        ({ st with last_action_message := "skip: " ++ pathStr (get_imgname images st) },
          none)
      else
        move_current_image images st dist
    | none => (st, none)
  match acted with
  | (st1, some e) => (st1, some e)
  | (st1, none) =>
    let st2 := (update_imgstate st1).getD st1
    ({ st2 with processed_num := st2.processed_num + 1 }, none)

/-- Errors that make `run_app` return `Err` (and hence `main` exit non-zero). -/
inductive RunErr
  | recvErr            -- the initial `app.update_imgstate()?` failed
  | keyErr (e : MoveErr)  -- `app.on_key(c)?` propagated a move error
deriving DecidableEq

/-- The exit condition of `run_app`'s loop (main.rs 286):
`app.should_quit || app.processed_num >= image_num`, with `image_num` the raw
catalog length. -/
def finished_check (img_num : Nat) (st : AppState) : Bool :=
  st.should_quit || decide (img_num ≤ st.processed_num)

/-- The key-handling loop of `run_app` (main.rs 253-294), fed the finite list
of key presses the user makes. Each iteration checks the exit condition, then
handles one press: 'q' sets `should_quit`, any other char goes through
`app.on_key(c)?`, whose error aborts the loop. -/
def run_app_loop (images : List FsPath) (dists : Dists) (img_num : Nat) :
    AppState → List Char → Except RunErr AppState
  | st, [] => .ok st
  | st, c :: cs =>
    if st.should_quit = true ∨ img_num ≤ st.processed_num then .ok st
    else if c = 'q' then
      run_app_loop images dists img_num { st with should_quit := true } cs
    else
      match on_key images dists st c with
      | (_, some e) => .error (.keyErr e)
      | (st', none) => run_app_loop images dists img_num st' cs

/-- Model of `run_app` (main.rs 244-295): the initial blocking
`app.update_imgstate()?`, then the key loop with `image_num = images.len()`. -/
def run_app (images : List FsPath) (dists : Dists) (st : AppState)
    (keys : List Char) : Except RunErr AppState :=
  match update_imgstate st with
  | none => .error .recvErr
  | some st1 => run_app_loop images dists images.length st1 keys

/-- Model of `main`'s tail (main.rs 234-240): an `Err` from the scope is
reported and returned, so the process exits with status 1; `Ok` exits 0. -/
def main_exit_code (res : Except RunErr AppState) : Nat :=
  match res with
  | .error _ => 1
  | .ok _ => 0

/-- Worker count of `main` (main.rs 177-179):
`available_parallelism().unwrap_or(1).get()`. The argument is `some p`
(with `1 ≤ p`) when parallelism is detected, `none` on detection error. -/
def worker_num_main (par : Option Nat) : Nat := par.getD 1

/-- Worker count of the draft `App::new` (app.rs 63-66):
`match available_parallelism() { Ok(n) => n.get() - 1, Err(_) => 1 }`. -/
def worker_num_app (par : Option Nat) : Nat :=
  match par with
  | some n => n - 1
  | none => 1

/-- app.rs 48: `const PROCESSED_IMG_BUFSIZE: usize = 7;`. -/
def PROCESSED_IMG_BUFSIZE : Nat := 7

/-- main.rs 181: `sync_channel::<ProcessedImg>(4)`. -/
def main_channel_capacity : Nat := 4

/-- Model of `u8::to_ascii_lowercase` on a char. -/
def asciiLower (c : Char) : Char :=
  if 'A' ≤ c ∧ c ≤ 'Z' then Char.ofNat (c.toNat + 32) else c

/-- Model of `str::eq_ignore_ascii_case`. -/
def eq_ignore_ascii_case (s t : String) : Bool :=
  s.data.map asciiLower == t.data.map asciiLower

/-- main.rs 355: whether `draw_info_panel` styles `folder` as a skip binding
(`folder.eq_ignore_ascii_case("skip")`). -/
def display_is_skip (folder : String) : Bool := eq_ignore_ascii_case folder "skip"

/-- A worker's position in its loop (main.rs 197-219). -/
inductive Phase
  | running            -- at the top of the loop, about to `fetch_add`
  | claimed (i : Nat)  -- holds index `i < N`, between claim and send
  | done               -- broke out of the loop
deriving DecidableEq

/-- Interleaved state of the worker pool, the channel and the consumer-side
channel actions. Workers are identified by naturals. -/
structure PoolState where
  cursor : Nat           -- the shared `AtomicUsize` `next_idx`
  workers : Nat → Phase
  queue : List Nat       -- task indices buffered in the `sync_channel`, FIFO
  consumed : List Nat    -- task indices already received by the consumer
  receiverOpen : Bool    -- whether the consumer still holds `rx`

/-- All task indices ever delivered to the consumer side of the channel, in
delivery order. -/
def delivered (s : PoolState) : List Nat := s.consumed ++ s.queue

/-- Observable actions of the pool system. -/
inductive PoolLabel
  | claim (w i : Nat)       -- `next_idx.fetch_add(1)` returned `i`
  | deliver (w i : Nat)     -- `tx.send` succeeded with task `i`
  | decodeFail (w i : Nat)  -- `ImageReader::open` or `decode` failed; `continue`
  | sendErr (w i : Nat)     -- `tx.send` failed (receiver dropped); `break`
  | recv (i : Nat)          -- the consumer's `recv` returned task `i`
  | close                   -- the consumer dropped `rx`
deriving DecidableEq

/-- One interleaved step of the system of main.rs 191-224: `N` is the catalog
length `img_num`, `cap` the `sync_channel` capacity. A send is possible only
with the receiver open and fewer than `cap` buffered tasks (a worker on a full
queue blocks); once the receiver is dropped a send fails immediately and the
worker breaks out of its loop. -/
inductive Step (N cap : Nat) : PoolState → PoolLabel → PoolState → Prop
  | claim (s : PoolState) (w : Nat) :
      s.workers w = .running →
      Step N cap s (.claim w s.cursor)
        { s with
            cursor := s.cursor + 1,
            workers := Function.update s.workers w
              (if s.cursor < N then .claimed s.cursor else .done) }
  | deliver (s : PoolState) (w i : Nat) :
      s.workers w = .claimed i → s.receiverOpen = true → s.queue.length < cap →
      Step N cap s (.deliver w i)
        { s with
            workers := Function.update s.workers w .running,
            queue := s.queue ++ [i] }
  | decodeFail (s : PoolState) (w i : Nat) :
      s.workers w = .claimed i →
      Step N cap s (.decodeFail w i)
        { s with workers := Function.update s.workers w .running }
  | sendErr (s : PoolState) (w i : Nat) :
      s.workers w = .claimed i → s.receiverOpen = false →
      Step N cap s (.sendErr w i)
        { s with workers := Function.update s.workers w .done }
  | recv (s : PoolState) (i : Nat) (rest : List Nat) :
      s.queue = i :: rest → s.receiverOpen = true →
      Step N cap s (.recv i)
        { s with queue := rest, consumed := s.consumed ++ [i] }
  | close (s : PoolState) :
      s.receiverOpen = true →
      Step N cap s .close { s with receiverOpen := false }

/-- The system's initial state: cursor 0, every worker at the loop top, empty
channel, receiver held by the consumer. -/
def initPool : PoolState :=
  { cursor := 0, workers := fun _ => .running, queue := [], consumed := [],
    receiverOpen := true }

/-- States reachable by interleaved execution from `initPool`. -/
inductive Reachable (N cap : Nat) : PoolState → Prop
  | init : Reachable N cap initPool
  | step {s : PoolState} {l : PoolLabel} {s' : PoolState} :
      Reachable N cap s → Step N cap s l s' → Reachable N cap s'

/-- Inductive invariant of the pool: delivered indices are distinct, below the
catalog length and below the cursor; a claimed index is below the catalog
length and the cursor, undelivered, and held by at most one worker. -/
def PoolInv (N : Nat) (s : PoolState) : Prop :=
  (delivered s).Nodup ∧
  (∀ i ∈ delivered s, i < N ∧ i < s.cursor) ∧
  (∀ w i, s.workers w = .claimed i → i < N ∧ i < s.cursor ∧ i ∉ delivered s) ∧
  (∀ w w' i i', w ≠ w' → s.workers w = .claimed i → s.workers w' = .claimed i' →
    i ≠ i')

/-- Concrete catalog used in the analysis of claim C2. -/
def c2Images : List FsPath := [["imgs", "a.jpg"], ["imgs", "b.jpg"]]

def c2Dists : Dists := [('x', "dest")]

/-- Start state for C2: two catalog entries, but only one Task (index 0) is
ever delivered (the other image failed to decode). -/
def c2St : AppState :=
  { processed_num := 0, current_img := none, last_action_message := "",
    pending := [0], fs := { paths := [["imgs", "a.jpg"], ["imgs", "b.jpg"]] },
    should_quit := false }

/-- C2 witness state: the app after the initial receive, channel drained. -/
def c2StA : AppState :=
  { processed_num := 0, current_img := some 0, last_action_message := "",
    pending := [], fs := { paths := [["imgs", "a.jpg"], ["imgs", "b.jpg"]] },
    should_quit := false }

/-- Concrete catalog used in the analysis of claim C3. -/
def c3Images : List FsPath := [["imgs", "a.jpg"], ["imgs", "b.jpg"]]

def c3Dists : Dists := [('x', "dest")]

/-- C3 state: displaying task 0, with task 1 still pending in the channel. -/
def c3St : AppState :=
  { processed_num := 0, current_img := some 0, last_action_message := "",
    pending := [1], fs := { paths := [["imgs", "a.jpg"], ["imgs", "b.jpg"]] },
    should_quit := false }

/-- Concrete catalog used in the analysis of claim C4. -/
def c4Images : List FsPath := [["imgs", "a.jpg"]]

def c4Dists : Dists := [('x', "dest")]

/-- C4 state: the destination already holds a file named a.jpg, so pressing
'x' makes the move collide. -/
def c4St : AppState :=
  { processed_num := 3, current_img := some 0, last_action_message := "prev",
    pending := [],
    fs := { paths := [["imgs", "a.jpg"], ["dest", "a.jpg"], ["dest"]] },
    should_quit := false }

/-- Concrete catalog used in the analysis of claim C5. -/
def c5Images : List FsPath := [["imgs", "a.jpg"]]

/-- C5 state: a clean filesystem, destination directories not yet created. -/
def c5St : AppState :=
  { processed_num := 0, current_img := some 0, last_action_message := "",
    pending := [], fs := { paths := [["imgs", "a.jpg"]] },
    should_quit := false }

/-- Concrete catalog used in the analysis of claim C6. -/
def c6Images : List FsPath := [["imgs", "a.jpg"], ["imgs", "b.jpg"]]

def c6Dists : Dists := [('x', "dest")]

/-- C6 start state: catalog of 2, but only one Task (index 0) is deliverable
(the other image failed to decode). -/
def c6St : AppState :=
  { processed_num := 0, current_img := none, last_action_message := "",
    pending := [0], fs := { paths := [["imgs", "a.jpg"], ["imgs", "b.jpg"]] },
    should_quit := false }

/-- C6 witness state: the app after the initial receive, channel drained. -/
def c6StA : AppState :=
  { processed_num := 0, current_img := some 0, last_action_message := "",
    pending := [], fs := { paths := [["imgs", "a.jpg"], ["imgs", "b.jpg"]] },
    should_quit := false }

/-- C6 witness state after one completed unmapped key press. -/
def c6StB : AppState := { c6StA with processed_num := 1 }

/-- Concrete catalog used in the analysis of claim C7. -/
def c7Images : List FsPath := [["imgs", "a.jpg"]]

def c7Dists : Dists := [('x', "dest")]

/-- C7 state: the first receive will succeed, and the move triggered by 'x'
will collide with the pre-existing dest/a.jpg. -/
def c7St : AppState :=
  { processed_num := 0, current_img := none, last_action_message := "",
    pending := [0],
    fs := { paths := [["imgs", "a.jpg"], ["dest", "a.jpg"], ["dest"]] },
    should_quit := false }

/-- C1 counterexample trace (catalog length 1): worker 0 has claimed index 0. -/
def c1xA : PoolState :=
  { cursor := 1, workers := Function.update initPool.workers 0 (Phase.claimed 0),
    queue := [], consumed := [], receiverOpen := true }

/-- C1 counterexample trace: the consumer has dropped the receiver. -/
def c1xB : PoolState := { c1xA with receiverOpen := false }

/-- C1 counterexample trace: worker 0 broke out of its loop after the failed
send, with its claimed index 0 still below the catalog length 1. -/
def c1xC : PoolState := { c1xB with workers := Function.update c1xB.workers 0 Phase.done }

/-- C1 witness trace (catalog length 2): worker 0 has claimed index 0. -/
def c1wA : PoolState :=
  { cursor := 1, workers := Function.update initPool.workers 0 (Phase.claimed 0),
    queue := [], consumed := [], receiverOpen := true }

/-- C1 witness trace: worker 0 delivered task 0. -/
def c1wB : PoolState :=
  { c1wA with
    workers := Function.update c1wA.workers 0 Phase.running,
    queue := c1wA.queue ++ [0] }

/-- C9 trace (catalog length 5, single active worker): states of the run in
which worker 0 alternately claims and delivers until the channel is full. -/
def c9t1 : PoolState :=
  { cursor := 1, workers := Function.update initPool.workers 0 (Phase.claimed 0),
    queue := [], consumed := [], receiverOpen := true }

def c9t2 : PoolState :=
  { c9t1 with
    workers := Function.update c9t1.workers 0 Phase.running,
    queue := c9t1.queue ++ [0] }

def c9t3 : PoolState :=
  { c9t2 with
    cursor := c9t2.cursor + 1,
    workers := Function.update c9t2.workers 0 (Phase.claimed 1) }

def c9t4 : PoolState :=
  { c9t3 with
    workers := Function.update c9t3.workers 0 Phase.running,
    queue := c9t3.queue ++ [1] }

def c9t5 : PoolState :=
  { c9t4 with
    cursor := c9t4.cursor + 1,
    workers := Function.update c9t4.workers 0 (Phase.claimed 2) }

def c9t6 : PoolState :=
  { c9t5 with
    workers := Function.update c9t5.workers 0 Phase.running,
    queue := c9t5.queue ++ [2] }

def c9t7 : PoolState :=
  { c9t6 with
    cursor := c9t6.cursor + 1,
    workers := Function.update c9t6.workers 0 (Phase.claimed 3) }

def c9t8 : PoolState :=
  { c9t7 with
    workers := Function.update c9t7.workers 0 Phase.running,
    queue := c9t7.queue ++ [3] }

/-- C9 blocked state: worker 0 holds index 4 while 4 tasks are buffered; with
capacity 4 its send is not enabled although fewer than 7 tasks are buffered. -/
def c9t9 : PoolState :=
  { c9t8 with
    cursor := c9t8.cursor + 1,
    workers := Function.update c9t8.workers 0 (Phase.claimed 4) }

/-- Concrete catalog used in the analysis of claim C10. -/
def c10Images : List FsPath := [["imgs", "a.jpg"]]

/-- C10 mapping: the value "Skip" equals the sentinel only ignoring case. -/
def c10Dists : Dists := [('x', "Skip")]

def c10St : AppState :=
  { processed_num := 0, current_img := some 0, last_action_message := "",
    pending := [], fs := { paths := [["imgs", "a.jpg"]] },
    should_quit := false }

theorem length_le_of_nodup_lt {N : Nat} {l : List Nat} (h1 : l.Nodup)
    (h2 : ∀ i ∈ l, i < N) : l.length ≤ N := by
  calc l.length = l.toFinset.card := (List.toFinset_card_of_nodup h1).symm
    _ ≤ (Finset.range N).card := by
        apply Finset.card_le_card
        intro x hx
        rw [List.mem_toFinset] at hx
        exact Finset.mem_range.mpr (h2 x hx)
    _ = N := Finset.card_range N

theorem step_preserves_inv {N cap : Nat} {s : PoolState} {l : PoolLabel}
    {s' : PoolState} (hstep : Step N cap s l s') (hinv : PoolInv N s) :
    PoolInv N s' := by
  obtain ⟨hnd, hdel, hcl, hdist⟩ := hinv
  cases hstep with
  | claim w hw =>
    refine ⟨hnd, ?_, ?_, ?_⟩
    · intro i hi
      exact ⟨(hdel i hi).1, Nat.lt_succ_of_lt (hdel i hi).2⟩
    · intro w' i h
      simp only at h
      by_cases hww : w' = w
      · subst hww
        rw [Function.update_same] at h
        by_cases hcur : s.cursor < N
        · rw [if_pos hcur] at h
          cases h
          refine ⟨hcur, Nat.lt_succ_self _, fun hmem => ?_⟩
          exact absurd (hdel _ hmem).2 (Nat.lt_irrefl _)
        · rw [if_neg hcur] at h
          exact absurd h (by simp)
      · rw [Function.update_noteq hww] at h
        exact ⟨(hcl w' i h).1, Nat.lt_succ_of_lt (hcl w' i h).2.1, (hcl w' i h).2.2⟩
    · intro w1 w2 i1 i2 hne h1 h2
      simp only at h1 h2
      by_cases hw1 : w1 = w
      · subst hw1
        rw [Function.update_same] at h1
        rw [Function.update_noteq (fun hc => hne hc.symm) ] at h2
        by_cases hcur : s.cursor < N
        · rw [if_pos hcur] at h1
          cases h1
          intro hc
          exact absurd ((hcl w2 i2 h2).2.1) (by rw [← hc]; exact Nat.lt_irrefl _)
        · rw [if_neg hcur] at h1
          exact absurd h1 (by simp)
      · rw [Function.update_noteq hw1] at h1
        by_cases hw2 : w2 = w
        · subst hw2
          rw [Function.update_same] at h2
          by_cases hcur : s.cursor < N
          · rw [if_pos hcur] at h2
            cases h2
            intro hc
            exact absurd ((hcl w1 i1 h1).2.1) (by rw [hc]; exact Nat.lt_irrefl _)
          · rw [if_neg hcur] at h2
            exact absurd h2 (by simp)
        · rw [Function.update_noteq hw2] at h2
          exact hdist w1 w2 i1 i2 hne h1 h2
  | deliver w i hw hopen hlen =>
    have hdeq : delivered { s with
        workers := Function.update s.workers w Phase.running,
        queue := s.queue ++ [i] } = delivered s ++ [i] := by
      simp [delivered]
    have hi := hcl w i hw
    refine ⟨?_, ?_, ?_, ?_⟩
    · rw [hdeq]
      refine List.Nodup.append hnd (List.nodup_singleton i) ?_
      intro a ha hb
      rw [List.mem_singleton] at hb
      subst hb
      exact hi.2.2 ha
    · intro j hj
      rw [hdeq, List.mem_append, List.mem_singleton] at hj
      rcases hj with hj | hj
      · exact hdel j hj
      · subst hj; exact ⟨hi.1, hi.2.1⟩
    · intro w' j h
      simp only at h
      by_cases hww : w' = w
      · subst hww; rw [Function.update_same] at h; exact absurd h (by simp)
      · rw [Function.update_noteq hww] at h
        have hj := hcl w' j h
        refine ⟨hj.1, hj.2.1, ?_⟩
        rw [hdeq, List.mem_append, List.mem_singleton]
        rintro (hc | hc)
        · exact hj.2.2 hc
        · exact hdist w' w j i hww h hw hc
    · intro w1 w2 i1 i2 hne h1 h2
      simp only at h1 h2
      by_cases hw1 : w1 = w
      · subst hw1; rw [Function.update_same] at h1; exact absurd h1 (by simp)
      · by_cases hw2 : w2 = w
        · subst hw2; rw [Function.update_same] at h2; exact absurd h2 (by simp)
        · rw [Function.update_noteq hw1] at h1
          rw [Function.update_noteq hw2] at h2
          exact hdist w1 w2 i1 i2 hne h1 h2
  | decodeFail w i hw =>
    refine ⟨hnd, hdel, ?_, ?_⟩
    · intro w' j h
      simp only at h
      by_cases hww : w' = w
      · subst hww; rw [Function.update_same] at h; exact absurd h (by simp)
      · rw [Function.update_noteq hww] at h
        exact hcl w' j h
    · intro w1 w2 i1 i2 hne h1 h2
      simp only at h1 h2
      by_cases hw1 : w1 = w
      · subst hw1; rw [Function.update_same] at h1; exact absurd h1 (by simp)
      · by_cases hw2 : w2 = w
        · subst hw2; rw [Function.update_same] at h2; exact absurd h2 (by simp)
        · rw [Function.update_noteq hw1] at h1
          rw [Function.update_noteq hw2] at h2
          exact hdist w1 w2 i1 i2 hne h1 h2
  | sendErr w i hw hclosed =>
    refine ⟨hnd, hdel, ?_, ?_⟩
    · intro w' j h
      simp only at h
      by_cases hww : w' = w
      · subst hww; rw [Function.update_same] at h; exact absurd h (by simp)
      · rw [Function.update_noteq hww] at h
        exact hcl w' j h
    · intro w1 w2 i1 i2 hne h1 h2
      simp only at h1 h2
      by_cases hw1 : w1 = w
      · subst hw1; rw [Function.update_same] at h1; exact absurd h1 (by simp)
      · by_cases hw2 : w2 = w
        · subst hw2; rw [Function.update_same] at h2; exact absurd h2 (by simp)
        · rw [Function.update_noteq hw1] at h1
          rw [Function.update_noteq hw2] at h2
          exact hdist w1 w2 i1 i2 hne h1 h2
  | recv i rest hq hopen =>
    have hdeq : delivered { s with queue := rest, consumed := s.consumed ++ [i] }
        = delivered s := by
      simp [delivered, hq, List.append_assoc]
    refine ⟨?_, ?_, ?_, ?_⟩
    · rw [hdeq]; exact hnd
    · intro j hj; rw [hdeq] at hj; exact hdel j hj
    · intro w' j h
      simp only at h
      have hj := hcl w' j h
      rw [hdeq]
      exact hj
    · intro w1 w2 i1 i2 hne h1 h2
      exact hdist w1 w2 i1 i2 hne h1 h2
  | close hopen =>
    exact ⟨hnd, hdel, hcl, hdist⟩

theorem reachable_inv {N cap : Nat} {s : PoolState}
    (h : Reachable N cap s) : PoolInv N s := by
  induction h with
  | init =>
    refine ⟨List.nodup_nil, ?_, ?_, ?_⟩
    · intro i hi; exact absurd hi (List.not_mem_nil i)
    · intro w i h; exact absurd h (by simp [initPool])
    · intro w1 w2 i1 i2 hne h1 h2; exact absurd h1 (by simp [initPool])
  | step _ hstep ih => exact step_preserves_inv hstep ih

theorem splitSlash_ne_nil (l : List Char) : splitSlash l ≠ [] := by
  cases l with
  | nil => simp [splitSlash]
  | cons c cs =>
    rw [splitSlash]
    by_cases h : c = '/'
    · simp [h]
    · rw [if_neg h]
      cases splitSlash cs <;> simp

theorem toPath_ne_nil (s : String) : toPath s ≠ [] := by
  unfold toPath
  intro h
  exact splitSlash_ne_nil s.data (List.map_eq_nil_iff.mp h)

theorem self_mem_ancestorDirs {d : FsPath} (h : d ≠ []) : d ∈ ancestorDirs d := by
  unfold ancestorDirs
  rw [List.mem_map]
  refine ⟨d.length - 1, ?_, ?_⟩
  · rw [List.mem_range]
    have : 0 < d.length := List.length_pos.mpr h
    omega
  · have : 0 < d.length := List.length_pos.mpr h
    rw [show d.length - 1 + 1 = d.length by omega]
    exact List.take_length d

theorem mem_create_dir_all (fs : FS) (d : FsPath) :
    ∀ p ∈ ancestorDirs d, p ∈ (fs.create_dir_all d).paths := by
  intro p hp
  unfold FS.create_dir_all
  rw [List.mem_append]
  by_cases h : p ∈ fs.paths
  · exact Or.inl h
  · refine Or.inr ?_
    rw [List.mem_filter]
    exact ⟨hp, by simpa using h⟩

theorem create_dir_all_of_present {fs : FS} {d : FsPath}
    (h : ∀ p ∈ ancestorDirs d, p ∈ fs.paths) : fs.create_dir_all d = fs := by
  unfold FS.create_dir_all
  have hfil : (ancestorDirs d).filter (fun p => decide (p ∉ fs.paths)) = [] := by
    rw [List.filter_eq_nil_iff]
    intro p hp
    simpa using h p hp
  rw [hfil, List.append_nil]

theorem mem_create_dir_all_iff (fs : FS) (d : FsPath) (p : FsPath) :
    p ∈ (fs.create_dir_all d).paths ↔ p ∈ fs.paths ∨ p ∈ ancestorDirs d := by
  unfold FS.create_dir_all
  rw [List.mem_append, List.mem_filter]
  by_cases h : p ∈ fs.paths
  · simp [h]
  · simp [h]

theorem update_imgstate_fields (st : AppState) :
    ((update_imgstate st).getD st).processed_num = st.processed_num ∧
    ((update_imgstate st).getD st).last_action_message = st.last_action_message ∧
    ((update_imgstate st).getD st).fs = st.fs ∧
    ((update_imgstate st).getD st).should_quit = st.should_quit ∧
    ((update_imgstate st).getD st).pending = st.pending.tail := by
  cases hp : st.pending with
  | nil => simp [update_imgstate, hp]
  | cons i rest => simp [update_imgstate, hp]

theorem move_current_image_fail {images : List FsPath} {st : AppState}
    {dist : String} {e : MoveErr}
    (h : (move_current_image images st dist).2 = some e) :
    (move_current_image images st dist).1.last_action_message =
      st.last_action_message ∧
    (move_current_image images st dist).1.current_img = st.current_img ∧
    (move_current_image images st dist).1.processed_num = st.processed_num ∧
    (move_current_image images st dist).1.pending = st.pending ∧
    (move_current_image images st dist).1.should_quit = st.should_quit := by
  cases hc : st.current_img with
  | none => simp [move_current_image, hc]
  | some idx =>
    cases hf : fileName ((images[idx]?).getD []) with
    | none => simp [move_current_image, hc, hf]
    | some name =>
      by_cases hex : (st.fs.create_dir_all (toPath dist)).pathExists
          (toPath dist ++ [name]) = true
      · simp [move_current_image, hc, hf, hex]
      · simp [move_current_image, hc, hf, hex] at h

theorem move_current_image_ok {images : List FsPath} {st : AppState}
    {dist : String}
    (h : (move_current_image images st dist).2 = none) :
    (move_current_image images st dist).1.current_img = st.current_img ∧
    (move_current_image images st dist).1.processed_num = st.processed_num ∧
    (move_current_image images st dist).1.pending = st.pending ∧
    (move_current_image images st dist).1.should_quit = st.should_quit := by
  cases hc : st.current_img with
  | none => simp [move_current_image, hc] at h
  | some idx =>
    cases hf : fileName ((images[idx]?).getD []) with
    | none => simp [move_current_image, hc, hf] at h
    | some name =>
      by_cases hex : (st.fs.create_dir_all (toPath dist)).pathExists
          (toPath dist ++ [name]) = true
      · simp [move_current_image, hc, hf, hex] at h
      · simp [move_current_image, hc, hf, hex]

theorem on_key_unmapped_fields {images : List FsPath} {dists : Dists}
    {st : AppState} {key : Char} (h : lookupDist dists key = none) :
    (on_key images dists st key).2 = none ∧
    (on_key images dists st key).1.last_action_message =
      st.last_action_message ∧
    (on_key images dists st key).1.fs = st.fs ∧
    (on_key images dists st key).1.processed_num = st.processed_num + 1 ∧
    (on_key images dists st key).1.pending = st.pending.tail ∧
    (on_key images dists st key).1.should_quit = st.should_quit ∧
    (st.pending = [] → (on_key images dists st key).1.current_img =
      st.current_img) ∧
    (∀ i rest, st.pending = i :: rest →
      (on_key images dists st key).1.current_img = some i) := by
  cases hp : st.pending with
  | nil => simp [on_key, h, update_imgstate, hp]
  | cons i rest => simp [on_key, h, update_imgstate, hp]

theorem on_key_ok_fields {images : List FsPath} {dists : Dists}
    {st : AppState} {key : Char}
    (h : (on_key images dists st key).2 = none) :
    (on_key images dists st key).1.processed_num = st.processed_num + 1 ∧
    (on_key images dists st key).1.pending = st.pending.tail ∧
    (on_key images dists st key).1.should_quit = st.should_quit := by
  cases hlk : lookupDist dists key with
  | none =>
    cases hp : st.pending with
    | nil => simp [on_key, hlk, update_imgstate, hp]
    | cons i rest => simp [on_key, hlk, update_imgstate, hp]
  | some dist =>
    by_cases hskip : dist = "skip"
    · cases hp : st.pending with
      | nil => simp [on_key, hlk, hskip, update_imgstate, hp]
      | cons i rest => simp [on_key, hlk, hskip, update_imgstate, hp]
    · cases hpair : move_current_image images st dist with
      | mk st1 err =>
        cases err with
        | some e => simp [on_key, hlk, hskip, hpair] at h
        | none =>
          have hok := @move_current_image_ok images st dist (by rw [hpair])
          rw [hpair] at hok
          simp only at hok
          cases hp : st1.pending with
          | nil =>
            have hpst : st.pending = [] := by rw [← hok.2.2.1]; exact hp
            simp [on_key, hlk, hskip, hpair, update_imgstate, hp, hpst,
              hok.2.1, hok.2.2.2]
          | cons i rest =>
            have hpst : st.pending = i :: rest := by rw [← hok.2.2.1]; exact hp
            simp [on_key, hlk, hskip, hpair, update_imgstate, hp, hpst,
              hok.2.1, hok.2.2.2]

/-- C2 (amended): every completed `on_key` call increments the progress
counter by exactly 1 and consumes at most one pending Task (the tail of the
pending queue), whether or not a Task was actually received; progress is
driven by key presses, not by successful receives, so it can exceed the
number of Tasks delivered when some images fail to decode. -/
theorem c2_progress_per_on_key (images : List FsPath) (dists : Dists)
    (st : AppState) (key : Char)
    (h : (on_key images dists st key).2 = none) :
    (on_key images dists st key).1.processed_num = st.processed_num + 1 ∧
    (on_key images dists st key).1.pending = st.pending.tail :=
  ⟨(on_key_ok_fields h).1, (on_key_ok_fields h).2.1⟩

/-- C2 witness: a concrete completed `on_key` call with an already-drained
channel still increments progress. -/
theorem c2_progress_per_on_key_witness :
    (on_key c2Images c2Dists c2StA 'z').2 = none ∧
    (on_key c2Images c2Dists c2StA 'z').1.processed_num =
      c2StA.processed_num + 1 :=
  ⟨by decide, (c2_progress_per_on_key c2Images c2Dists c2StA 'z' (by decide)).1⟩

/-- C2 counterexample: with 2 catalog entries but only 1 Task ever delivered,
two key presses drive the progress counter to 2, strictly above the number of
Tasks delivered, and the second press increments progress although its
`GetNext` receive failed. -/
theorem c2_counterexample :
    c2St.pending.length = 1 ∧
    (run_app c2Images c2Dists c2St ['z', 'z']).toOption =
      some { c2St with current_img := some 0, pending := [], processed_num := 2 } ∧
    c2St.pending.length <
      ((run_app c2Images c2Dists c2St ['z', 'z']).toOption.getD c2St).processed_num := by
  refine ⟨rfl, by decide, by decide⟩

/-- C3 (amended): for an unmapped key, `on_key` returns success with the
Action Log and the filesystem unchanged, but it is not a no-op: it still
performs the receive (advancing the displayed image to the next delivered
Task when one is available) and unconditionally increments the progress
counter. -/
theorem c3_unmapped_key (images : List FsPath) (dists : Dists) (st : AppState)
    (key : Char) (h : lookupDist dists key = none) :
    (on_key images dists st key).2 = none ∧
    (on_key images dists st key).1.last_action_message =
      st.last_action_message ∧
    (on_key images dists st key).1.fs = st.fs ∧
    (on_key images dists st key).1.processed_num = st.processed_num + 1 ∧
    (∀ i rest, st.pending = i :: rest →
      (on_key images dists st key).1.current_img = some i) :=
  have hu := on_key_unmapped_fields h
  ⟨hu.1, hu.2.1, hu.2.2.1, hu.2.2.2.1, hu.2.2.2.2.2.2.2⟩

/-- C3 witness: a concrete unmapped key press. -/
theorem c3_unmapped_key_witness :
    lookupDist c3Dists 'z' = none ∧
    (on_key c3Images c3Dists c3St 'z').1.processed_num =
      c3St.processed_num + 1 :=
  ⟨by decide, (c3_unmapped_key c3Images c3Dists c3St 'z' (by decide)).2.2.2.1⟩

/-- C3 counterexample: pressing the unmapped key 'z' in a state displaying
image 0 with image 1 pending returns success and leaves the log unchanged,
but advances the displayed image to index 1 and the progress counter from 0
to 1 — not a no-op. -/
theorem c3_counterexample :
    lookupDist c3Dists 'z' = none ∧
    c3St.processed_num = 0 ∧
    c3St.current_img = some 0 ∧
    (on_key c3Images c3Dists c3St 'z').2 = none ∧
    (on_key c3Images c3Dists c3St 'z').1.processed_num = 1 ∧
    (on_key c3Images c3Dists c3St 'z').1.current_img = some 1 := by decide

/-- C4: when a move attempt fails, `on_key` surfaces the error to the caller
and leaves the Action Log, the displayed image and the progress counter
exactly as they were before the call (only the directories created by
`create_dir_all` before the failure point persist). -/
theorem c4_failed_move_leaves_state (images : List FsPath) (dists : Dists)
    (st : AppState) (key : Char) (e : MoveErr)
    (h : (on_key images dists st key).2 = some e) :
    (on_key images dists st key).1.last_action_message =
      st.last_action_message ∧
    (on_key images dists st key).1.current_img = st.current_img ∧
    (on_key images dists st key).1.processed_num = st.processed_num ∧
    (on_key images dists st key).1.pending = st.pending := by
  cases hlk : lookupDist dists key with
  | none =>
    have h0 := (@on_key_unmapped_fields images dists st key hlk).1
    rw [h] at h0
    simp at h0
  | some dist =>
    by_cases hskip : dist = "skip"
    · simp [on_key, hlk, hskip] at h
    · cases hpair : move_current_image images st dist with
      | mk st1 err =>
        cases err with
        | none => simp [on_key, hlk, hskip, hpair] at h
        | some e0 =>
          have hfail := @move_current_image_fail images st dist e0 (by rw [hpair])
          rw [hpair] at hfail
          simp only at hfail
          simp [on_key, hlk, hskip, hpair, hfail.1, hfail.2.1, hfail.2.2.1,
            hfail.2.2.2.1]

/-- C4 witness: a concrete colliding move through `on_key` leaves the log,
image and progress untouched. -/
theorem c4_failed_move_leaves_state_witness :
    (on_key c4Images c4Dists c4St 'x').2 = some MoveErr.collision ∧
    ((on_key c4Images c4Dists c4St 'x').1.last_action_message =
        c4St.last_action_message ∧
      (on_key c4Images c4Dists c4St 'x').1.current_img = c4St.current_img ∧
      (on_key c4Images c4Dists c4St 'x').1.processed_num =
        c4St.processed_num ∧
      (on_key c4Images c4Dists c4St 'x').1.pending = c4St.pending) :=
  ⟨by decide,
    c4_failed_move_leaves_state c4Images c4Dists c4St 'x' MoveErr.collision
      (by decide)⟩

/-- C8 (amended): the crate root main.rs spawns `available_parallelism()`
workers (1 on detection failure), not parallelism minus one; the draft app.rs
computes parallelism minus one without flooring, so it spawns 0 workers on a
single-threaded machine (and 1 on detection failure). Only on machines with
P ≥ 2 does app.rs match "P - 1, at least one". -/
theorem c8_worker_count (p : Nat) (hp : 1 ≤ p) :
    worker_num_main (some p) = p ∧
    1 ≤ worker_num_main (some p) ∧
    worker_num_main none = 1 ∧
    worker_num_app (some p) = p - 1 ∧
    worker_num_app none = 1 ∧
    (2 ≤ p → 1 ≤ worker_num_app (some p)) ∧
    worker_num_app (some 1) = 0 := by
  refine ⟨rfl, hp, rfl, rfl, rfl, ?_, rfl⟩
  intro h2
  show 1 ≤ p - 1
  omega

/-- C8 witness: the worker counts on a machine with 4 hardware threads. -/
theorem c8_worker_count_witness :
    worker_num_main (some 4) = 4 ∧ worker_num_app (some 4) = 3 :=
  ⟨(c8_worker_count 4 (by decide)).1, (c8_worker_count 4 (by decide)).2.2.2.1⟩

/-- C8 counterexample: on a single-threaded machine the draft app.rs spawns
zero workers (not at least one), and on a 4-thread machine main.rs spawns 4
workers (not 4 - 1). -/
theorem c8_counterexample :
    worker_num_app (some 1) = 0 ∧
    ¬(1 ≤ worker_num_app (some 1)) ∧
    worker_num_main (some 4) = 4 ∧
    worker_num_main (some 4) ≠ 4 - 1 := by decide

/-- C5: `move_current_image` first runs `create_dir_all` on the destination
(after which the destination directory and all its ancestors exist, and
nothing changed if they already existed), then fails with the collision error
iff an entry with the source's file name already exists at the destination
(leaving the filesystem with only the created directories, so the existing
entry is never overwritten), and otherwise renames the source to
`dist/file_name` and records the move message. -/
theorem c5_move_image (images : List FsPath) (st : AppState) (dist : String)
    (idx : Nat) (name : String)
    (hc : st.current_img = some idx)
    (hn : fileName (images.getD idx []) = some name)
    (hsrc : images.getD idx [] ∉ ancestorDirs (toPath dist)) :
    (∀ p ∈ ancestorDirs (toPath dist),
      p ∈ (move_current_image images st dist).1.fs.paths) ∧
    ((∀ p ∈ ancestorDirs (toPath dist), p ∈ st.fs.paths) →
      st.fs.create_dir_all (toPath dist) = st.fs) ∧
    ((move_current_image images st dist).2 = some .collision ↔
      (st.fs.create_dir_all (toPath dist)).pathExists
        (toPath dist ++ [name]) = true) ∧
    ((st.fs.create_dir_all (toPath dist)).pathExists
        (toPath dist ++ [name]) = true →
      (move_current_image images st dist).1.fs =
        st.fs.create_dir_all (toPath dist)) ∧
    ((st.fs.create_dir_all (toPath dist)).pathExists
        (toPath dist ++ [name]) = false →
      (move_current_image images st dist).2 = none ∧
      (move_current_image images st dist).1.fs =
        (st.fs.create_dir_all (toPath dist)).rename (images.getD idx [])
          (toPath dist ++ [name]) ∧
      (move_current_image images st dist).1.last_action_message =
        "move: " ++ name ++ " -> " ++ dist) := by
  have hn' : fileName ((images[idx]?).getD []) = some name := by
    rw [← List.getD_eq_getElem?_getD]
    exact hn
  by_cases hex : (st.fs.create_dir_all (toPath dist)).pathExists
      (toPath dist ++ [name]) = true
  · refine ⟨?_, fun hpre => create_dir_all_of_present hpre, ?_, ?_, ?_⟩
    · intro p hp
      have hfs : (move_current_image images st dist).1.fs =
          st.fs.create_dir_all (toPath dist) := by
        simp [move_current_image, hc, hn', hex]
      rw [hfs]
      exact mem_create_dir_all st.fs (toPath dist) p hp
    · simp [move_current_image, hc, hn', hex]
    · intro _
      simp [move_current_image, hc, hn', hex]
    · intro hfalse
      rw [hex] at hfalse
      exact absurd hfalse (by simp)
  · have hexf : (st.fs.create_dir_all (toPath dist)).pathExists
        (toPath dist ++ [name]) = false := by
      revert hex
      cases (st.fs.create_dir_all (toPath dist)).pathExists
        (toPath dist ++ [name]) <;> simp
    refine ⟨?_, fun hpre => create_dir_all_of_present hpre, ?_, ?_, ?_⟩
    · intro p hp
      have hfs : (move_current_image images st dist).1.fs =
          (st.fs.create_dir_all (toPath dist)).rename (images.getD idx [])
            (toPath dist ++ [name]) := by
        simp [move_current_image, hc, hn', hex]
      rw [hfs]
      unfold FS.rename
      simp only [List.mem_cons]
      refine Or.inr ?_
      have hpmem := mem_create_dir_all st.fs (toPath dist) p hp
      have hpne : p ≠ images.getD idx [] := by
        intro hpe
        rw [hpe] at hp
        exact hsrc hp
      rw [List.mem_erase_of_ne hpne]
      exact hpmem
    · simp [move_current_image, hc, hn', hex]
    · intro htrue
      rw [hexf] at htrue
      exact absurd htrue (by simp)
    · intro _
      refine ⟨?_, ?_, ?_⟩ <;> simp [move_current_image, hc, hn', hex]

/-- C5 witness: moving imgs/a.jpg to the fresh destination "dest/sub" creates
both directories and renames the file, recording the move message. -/
theorem c5_move_image_witness :
    fileName (c5Images.getD 0 []) = some "a.jpg" ∧
    ((move_current_image c5Images c5St "dest/sub").2 = none ∧
      (move_current_image c5Images c5St "dest/sub").1.last_action_message =
        "move: " ++ "a.jpg" ++ " -> " ++ "dest/sub") :=
  have h := c5_move_image c5Images c5St "dest/sub" 0 "a.jpg" (by decide)
    (by decide) (by decide)
  ⟨by decide, (h.2.2.2.2 (by decide)).1, (h.2.2.2.2 (by decide)).2.2⟩

/-- C10: a mapped value equal to "skip" only ignoring ASCII case (such as
"Skip") is not treated as the skip sentinel by `on_key`: the key takes the
move path, creating a directory of that name and moving the current file into
it, even though `draw_info_panel` classifies the same value as a skip binding
case-insensitively. -/
theorem c10_skip_sentinel_case_sensitive (images : List FsPath)
    (dists : Dists) (st : AppState) (key : Char) (dist : String)
    (idx : Nat) (name : String)
    (hlk : lookupDist dists key = some dist)
    (hdisp : display_is_skip dist = true)
    (hne : dist ≠ "skip")
    (hc : st.current_img = some idx)
    (hn : fileName (images.getD idx []) = some name)
    (hex : (st.fs.create_dir_all (toPath dist)).pathExists
      (toPath dist ++ [name]) = false)
    (hsrc : images.getD idx [] ∉ ancestorDirs (toPath dist)) :
    (on_key images dists st key).2 = none ∧
    toPath dist ∈ (on_key images dists st key).1.fs.paths ∧
    (toPath dist ++ [name]) ∈ (on_key images dists st key).1.fs.paths ∧
    (on_key images dists st key).1.last_action_message =
      "move: " ++ name ++ " -> " ++ dist ∧
    display_is_skip dist = true := by
  have hn' : fileName ((images[idx]?).getD []) = some name := by
    rw [← List.getD_eq_getElem?_getD]
    exact hn
  have hMfs : (move_current_image images st dist).1.fs =
      (st.fs.create_dir_all (toPath dist)).rename (images.getD idx [])
        (toPath dist ++ [name]) := by
    simp [move_current_image, hc, hn', hex]
  have hMmsg : (move_current_image images st dist).1.last_action_message =
      "move: " ++ name ++ " -> " ++ dist := by
    simp [move_current_image, hc, hn', hex]
  cases hpair : move_current_image images st dist with
  | mk st1 err =>
    have hM2 : (move_current_image images st dist).2 = none := by
      simp [move_current_image, hc, hn', hex]
    rw [hpair] at hM2 hMfs hMmsg
    simp only at hM2 hMfs hMmsg
    subst hM2
    have hu := update_imgstate_fields st1
    have hfs : (on_key images dists st key).1.fs = st1.fs := by
      simp [on_key, hlk, hne, hpair, hu.2.2.1]
    have hmsg : (on_key images dists st key).1.last_action_message =
        st1.last_action_message := by
      simp [on_key, hlk, hne, hpair, hu.2.1]
    have hdirmem : toPath dist ∈ ancestorDirs (toPath dist) :=
      self_mem_ancestorDirs (toPath_ne_nil dist)
    have hdirne : toPath dist ≠ images.getD idx [] :=
      fun he => hsrc (he ▸ hdirmem)
    refine ⟨by simp [on_key, hlk, hne, hpair], ?_, ?_, ?_, hdisp⟩
    · rw [hfs, hMfs]
      unfold FS.rename
      simp only [List.mem_cons]
      refine Or.inr ?_
      rw [List.mem_erase_of_ne hdirne]
      exact mem_create_dir_all st.fs (toPath dist) (toPath dist) hdirmem
    · rw [hfs, hMfs]
      unfold FS.rename
      exact List.mem_cons_self _ _
    · rw [hmsg, hMmsg]

/-- C10 witness: with the mapping 'x' → "Skip", the key display styles the
binding as a skip, yet pressing 'x' creates a directory "Skip" and moves the
current image into it. -/
theorem c10_skip_sentinel_witness :
    lookupDist c10Dists 'x' = some "Skip" ∧
    display_is_skip "Skip" = true ∧
    (on_key c10Images c10Dists c10St 'x').2 = none ∧
    toPath "Skip" ∈ (on_key c10Images c10Dists c10St 'x').1.fs.paths :=
  have h := c10_skip_sentinel_case_sensitive c10Images c10Dists c10St 'x'
    "Skip" 0 "a.jpg" (by decide) (by decide) (by decide) (by decide)
    (by decide) (by decide) (by decide)
  ⟨by decide, h.2.2.2.2, h.1, h.2.1⟩

/-- C6 (amended): the loop exit of `run_app` is computed from the raw catalog
length `images.length`, not from the Tasks actually delivered: over unmapped,
non-quit keys the loop runs until the number of completed `on_key` calls
reaches the catalog length, and the exit condition holds iff the key-press
count reaches it — independently of the `pending` Task queue. -/
theorem c6_finished_from_catalog_length (images : List FsPath) (dists : Dists)
    (st : AppState) (cs : List Char)
    (hq : st.should_quit = false)
    (hkeys : ∀ c ∈ cs, lookupDist dists c = none ∧ c ≠ 'q') :
    ∀ st', run_app_loop images dists images.length st cs = .ok st' →
      st'.should_quit = false ∧
      st'.processed_num =
        (if images.length ≤ st.processed_num then st.processed_num
         else min (st.processed_num + cs.length) images.length) ∧
      (finished_check images.length st' = true ↔
        images.length ≤ st.processed_num + cs.length ∨
        images.length ≤ st.processed_num) := by
  induction cs generalizing st with
  | nil =>
    intro st' h
    simp only [run_app_loop, Except.ok.injEq] at h
    subst h
    refine ⟨hq, ?_, ?_⟩
    · by_cases hle : images.length ≤ st.processed_num
      · rw [if_pos hle]
      · rw [if_neg hle]
        have : st.processed_num < images.length := Nat.lt_of_not_le hle
        simp only [List.length_nil, Nat.add_zero]
        omega
    · simp [finished_check, hq]
  | cons c cs ih =>
    intro st' h
    have hc := hkeys c (List.mem_cons_self c cs)
    simp only [run_app_loop] at h
    by_cases hle : images.length ≤ st.processed_num
    · rw [if_pos (Or.inr hle)] at h
      simp only [Except.ok.injEq] at h
      subst h
      refine ⟨hq, by rw [if_pos hle], ?_⟩
      simp only [finished_check, hq, Bool.false_or, decide_eq_true_eq]
      constructor
      · intro _
        exact Or.inr hle
      · intro _
        exact hle
    · have hcond : ¬(st.should_quit = true ∨ images.length ≤ st.processed_num) := by
        rw [hq]
        simp [hle]
      rw [if_neg hcond, if_neg hc.2] at h
      cases hok : on_key images dists st c with
      | mk st1 err =>
        cases err with
        | some e =>
          rw [hok] at h
          simp at h
        | none =>
          rw [hok] at h
          simp only at h
          have hf := @on_key_ok_fields images dists st c (by rw [hok])
          rw [hok] at hf
          simp only at hf
          have hq1 : st1.should_quit = false := by rw [hf.2.2, hq]
          have hrest := ih st1 hq1
            (fun c0 hc0 => hkeys c0 (List.mem_cons_of_mem c hc0)) st' h
          refine ⟨hrest.1, ?_, ?_⟩
          · rw [hrest.2.1, hf.1]
            have hlt : st.processed_num < images.length := Nat.lt_of_not_le hle
            rw [if_neg hle]
            simp only [List.length_cons]
            by_cases h2 : images.length ≤ st.processed_num + 1
            · rw [if_pos h2]
              omega
            · rw [if_neg h2]
              omega
          · rw [hrest.2.2, hf.1]
            simp only [List.length_cons]
            constructor
            · intro hor
              rcases hor with hor | hor
              · exact Or.inl (by omega)
              · exact Or.inl (by omega)
            · intro hor
              have hlt : st.processed_num < images.length := Nat.lt_of_not_le hle
              rcases hor with hor | hor
              · exact Or.inl (by omega)
              · omega

/-- C6 witness: with a catalog of 2 and one unmapped key press from progress
0, the loop exits un-finished, and the exit condition matches "2 presses
completed", not the single delivered Task. -/
theorem c6_finished_from_catalog_length_witness :
    run_app_loop c6Images c6Dists c6Images.length c6StA ['z'] = .ok c6StB ∧
    (finished_check c6Images.length c6StB = true ↔
      c6Images.length ≤ c6StA.processed_num + 1 ∨
      c6Images.length ≤ c6StA.processed_num) :=
  ⟨by rfl,
    (c6_finished_from_catalog_length c6Images c6Dists c6StA ['z'] rfl
      (by decide) c6StB (by rfl)).2.2⟩

/-- C6 counterexample: catalog of 2 entries with only 1 decodable image.
After the consumer has received that single Task and completed one action
(all Tasks delivered and consumed), the app is not Finished; it becomes
Finished only after a second key press, i.e. when the raw catalog length is
reached. -/
theorem c6_counterexample :
    c6Images.length = 2 ∧
    c6St.pending.length = 1 ∧
    (run_app c6Images c6Dists c6St ['z']).toOption =
      some { c6St with current_img := some 0, pending := [], processed_num := 1 } ∧
    finished_check c6Images.length
      { c6St with current_img := some 0, pending := [], processed_num := 1 } =
      false ∧
    (run_app c6Images c6Dists c6St ['z', 'z']).toOption =
      some { c6St with current_img := some 0, pending := [], processed_num := 2 } ∧
    finished_check c6Images.length
      { c6St with current_img := some 0, pending := [], processed_num := 2 } =
      true := by decide

/-- C7 (amended): a per-item decode failure is recovered locally — the worker
returns to the top of its loop, nothing is delivered for that index, and the
pool continues — but a per-action move failure is not recovered: `run_app`
propagates it out of the loop and `main` exits the process with status 1. -/
theorem c7_error_propagation :
    (∀ (N cap : Nat) (s : PoolState) (w i : Nat) (s' : PoolState),
      Step N cap s (.decodeFail w i) s' →
      s'.workers w = .running ∧ delivered s' = delivered s ∧
      s'.cursor = s.cursor ∧ s'.receiverOpen = s.receiverOpen) ∧
    (∀ (images : List FsPath) (dists : Dists) (st st1 : AppState)
      (c : Char) (cs : List Char) (e : MoveErr),
      update_imgstate st = some st1 →
      st1.should_quit = false →
      st1.processed_num < images.length →
      c ≠ 'q' →
      (on_key images dists st1 c).2 = some e →
      run_app images dists st (c :: cs) = .error (.keyErr e) ∧
      main_exit_code (run_app images dists st (c :: cs)) = 1) := by
  constructor
  · intro N cap s w i s' hstep
    cases hstep with
    | decodeFail hw =>
      refine ⟨?_, rfl, rfl, rfl⟩
      simp [Function.update_same]
  · intro images dists st st1 c cs e hupd hq1 hlt hcq h
    have hcond : ¬(st1.should_quit = true ∨ images.length ≤ st1.processed_num) := by
      rw [hq1]
      simp
      omega
    have hrun : run_app images dists st (c :: cs) = .error (.keyErr e) := by
      unfold run_app
      rw [hupd]
      simp only [run_app_loop]
      rw [if_neg hcond, if_neg hcq]
      cases hok : on_key images dists st1 c with
      | mk st2 err =>
        rw [hok] at h
        simp only at h
        subst h
        rfl
    refine ⟨hrun, ?_⟩
    rw [hrun]
    rfl

/-- C7 counterexample: a move collision (a per-action error) makes `run_app`
return an error and the process exit with status 1, so per-action errors do
terminate the process. -/
theorem c7_counterexample :
    run_app c7Images c7Dists c7St ['x'] =
      .error (RunErr.keyErr MoveErr.collision) ∧
    main_exit_code (run_app c7Images c7Dists c7St ['x']) = 1 :=
  ⟨by rfl, by rfl⟩

/-- C1 (amended): in every reachable pool state the delivered Tasks carry
distinct indices below the catalog length N, so at most N Tasks are ever
delivered and no index twice; a worker moves to `done` exactly through a
claim whose fetched index is ≥ N or through a failed send after the consumer
dropped the receiver, and a claim of index i makes the worker `done` iff
i ≥ N. -/
theorem c1_pool_delivery (N cap : Nat) (s : PoolState)
    (hs : Reachable N cap s) :
    (delivered s).Nodup ∧
    (∀ i ∈ delivered s, i < N) ∧
    (delivered s).length ≤ N ∧
    (∀ l s' w, Step N cap s l s' → s.workers w ≠ .done →
      s'.workers w = .done →
      (∃ i, N ≤ i ∧ l = .claim w i) ∨ (∃ i, l = .sendErr w i)) ∧
    (∀ w s', Step N cap s (.claim w s.cursor) s' →
      (N ≤ s.cursor → s'.workers w = .done) ∧
      (s.cursor < N → s'.workers w = .claimed s.cursor)) := by
  obtain ⟨hnd, hdel, hcl, hdist⟩ := reachable_inv hs
  refine ⟨hnd, fun i hi => (hdel i hi).1,
    length_le_of_nodup_lt hnd (fun i hi => (hdel i hi).1), ?_, ?_⟩
  · intro l s' w hstep hw hw'
    cases hstep with
    | claim w0 h0 =>
      simp only at hw'
      by_cases hww : w = w0
      · subst hww
        rw [Function.update_same] at hw'
        by_cases hcur : s.cursor < N
        · rw [if_pos hcur] at hw'
          exact absurd hw' (by simp)
        · exact Or.inl ⟨s.cursor, Nat.le_of_not_lt hcur, rfl⟩
      · rw [Function.update_noteq hww] at hw'
        exact absurd hw' hw
    | deliver w0 i h1 h2 h3 =>
      simp only at hw'
      by_cases hww : w = w0
      · subst hww
        rw [Function.update_same] at hw'
        exact absurd hw' (by simp)
      · rw [Function.update_noteq hww] at hw'
        exact absurd hw' hw
    | decodeFail w0 i h1 =>
      simp only at hw'
      by_cases hww : w = w0
      · subst hww
        rw [Function.update_same] at hw'
        exact absurd hw' (by simp)
      · rw [Function.update_noteq hww] at hw'
        exact absurd hw' hw
    | sendErr w0 i h1 h2 =>
      simp only at hw'
      by_cases hww : w = w0
      · subst hww
        exact Or.inr ⟨i, rfl⟩
      · rw [Function.update_noteq hww] at hw'
        exact absurd hw' hw
    | recv i rest h1 h2 =>
      exact absurd hw' hw
    | close h1 =>
      exact absurd hw' hw
  · intro w s' hstep
    cases hstep with
    | claim w0 h0 =>
      constructor
      · intro hge
        simp only [Function.update_same]
        rw [if_neg (Nat.not_lt.mpr hge)]
      · intro hlt
        simp only [Function.update_same]
        rw [if_pos hlt]

/-- C1 witness: after worker 0 claims index 0 and delivers it (catalog
length 2), the delivered list is duplicate-free and within the bound. -/
theorem c1_pool_delivery_witness :
    (delivered c1wB).Nodup ∧ (delivered c1wB).length ≤ 2 :=
  have hr : Reachable 2 4 c1wB :=
    Reachable.step (Reachable.step Reachable.init (Step.claim initPool 0 rfl))
      (Step.deliver c1wA 0 0 rfl rfl (by decide))
  ⟨(c1_pool_delivery 2 4 c1wB hr).1, (c1_pool_delivery 2 4 c1wB hr).2.2.1⟩

/-- C1 counterexample: with a catalog of length 1, worker 0 claims index 0
(which is < 1), the consumer drops the receiver, and the worker's send fails:
the worker terminates although the index it claimed is below N, so claiming
an index ≥ N is not the only way a worker terminates. -/
theorem c1_counterexample :
    Reachable 1 4 c1xB ∧
    c1xB.workers 0 = Phase.claimed 0 ∧
    Step 1 4 c1xB (PoolLabel.sendErr 0 0) c1xC ∧
    c1xC.workers 0 = Phase.done ∧
    (0 : Nat) < 1 := by
  refine ⟨?_, rfl, ?_, rfl, Nat.zero_lt_one⟩
  · exact Reachable.step
      (Reachable.step Reachable.init (Step.claim initPool 0 rfl))
      (Step.close c1xA rfl)
  · exact Step.sendErr c1xB 0 0 rfl rfl

/-- C9 (amended): main.rs creates the worker channel with capacity 4, while
the draft app.rs constant `PROCESSED_IMG_BUFSIZE` is 7; with the capacity
used by main.rs, a worker holding a decoded Task can send it iff fewer than 4
Tasks are buffered, so its enqueue blocks as soon as 4 (not 7) Tasks are
buffered and unconsumed. -/
theorem c9_queue_capacity (N : Nat) (s : PoolState) (w i : Nat)
    (hw : s.workers w = .claimed i) (hopen : s.receiverOpen = true) :
    main_channel_capacity = 4 ∧ PROCESSED_IMG_BUFSIZE = 7 ∧
    ((∃ s', Step N main_channel_capacity s (.deliver w i) s') ↔
      s.queue.length < main_channel_capacity) := by
  refine ⟨rfl, rfl, ?_, ?_⟩
  · rintro ⟨s', hs⟩
    cases hs
    assumption
  · intro hlen
    exact ⟨_, Step.deliver s w i hw hopen hlen⟩

/-- C9 witness: the two capacities, read off a state in which worker 0 holds
a claimed Task. -/
theorem c9_queue_capacity_witness :
    main_channel_capacity = 4 ∧ PROCESSED_IMG_BUFSIZE = 7 :=
  have h := c9_queue_capacity 5 c9t1 0 0 rfl rfl
  ⟨h.1, h.2.1⟩

/-- C9 counterexample: a reachable run (catalog length 5, capacity as in
main.rs) in which worker 0 holds index 4 while 4 Tasks are buffered and
unconsumed: the send guard already fails at 4 buffered Tasks, not 7. -/
theorem c9_counterexample :
    Reachable 5 main_channel_capacity c9t9 ∧
    c9t9.workers 0 = Phase.claimed 4 ∧
    c9t9.receiverOpen = true ∧
    c9t9.queue.length = 4 ∧
    ¬(c9t9.queue.length < main_channel_capacity) ∧
    c9t9.queue.length ≠ PROCESSED_IMG_BUFSIZE := by
  refine ⟨?_, rfl, rfl, rfl, by decide, by decide⟩
  exact Reachable.step
    (Reachable.step
      (Reachable.step
        (Reachable.step
          (Reachable.step
            (Reachable.step
              (Reachable.step
                (Reachable.step
                  (Reachable.step Reachable.init (Step.claim initPool 0 rfl))
                  (Step.deliver c9t1 0 0 rfl rfl (by decide)))
                (Step.claim c9t2 0 rfl))
              (Step.deliver c9t3 0 1 rfl rfl (by decide)))
            (Step.claim c9t4 0 rfl))
          (Step.deliver c9t5 0 2 rfl rfl (by decide)))
        (Step.claim c9t6 0 rfl))
      (Step.deliver c9t7 0 3 rfl rfl (by decide)))
    (Step.claim c9t8 0 rfl)

end Shotclassif
